import Mathlib

/-!
Verification of the line-movement inference core of the bett-intel repository.

The Python source is shallowly embedded: JSON game records become structures,
Python floats become exact rationals (ℚ), Python dicts (which preserve
insertion order and overwrite values in place) become association lists
manipulated by an order-preserving insert, and Python loops become folds or
structural recursion.  Fallible operations return Option / Except.

Source files embedded here:
  src/analyzers/line_movement_tracker.py  (LineMovementTracker)
  src/collectors/odds_api.py              (OddsAPI static helpers)
-/

/-- One priced side of a market, as returned by the odds provider:
a JSON object with a required name, an optional American-odds price and an
optional point (the line). -/
structure Outcome where
  name : String
  price : Option Int := none
  point : Option ℚ := none
deriving DecidableEq

/-- A market: a key (spreads / totals / h2h) plus its outcomes. -/
structure Market where
  key : String
  outcomes : List Outcome
deriving DecidableEq

/-- One sportsbook's set of markets for one game. -/
structure Bookmaker where
  key : String
  markets : List Market
deriving DecidableEq

/-- A game record from The Odds API (the fields the analyzers read). -/
structure Game where
  id : String
  home_team : String
  bookmakers : List Bookmaker
deriving DecidableEq

/-- An element of the list returned by LineMovementTracker.get_snapshots:
the snapshot timestamp paired with the matching game record. -/
structure SnapEntry where
  timestamp : String
  game : Game
deriving DecidableEq

/-- A persisted snapshot file, as written by LineMovementTracker.save_snapshot:
a timestamp and the full list of games at that instant. -/
structure SnapFile where
  timestamp : String
  games : List Game
deriving DecidableEq

/-- The dictionary returned by LineMovementTracker.detect_steam_move for a
qualifying snapshot pair. -/
structure SteamEvent where
  timestamp : String
  books_moved : Nat
  avg_movement : ℚ
  direction : String
deriving DecidableEq

/-- Insertion into an association list with Python-dict semantics: an existing
key keeps its position and has its value overwritten; a new key is appended. -/
def dictInsert (k : String) (v : ℚ) : List (String × ℚ) → List (String × ℚ)
  | [] => [(k, v)]
  | (k2, v2) :: rest => if k2 = k then (k, v) :: rest else (k2, v2) :: dictInsert k v rest

/-- OddsAPI.american_to_implied_prob (src/collectors/odds_api.py, lines 18-34):
negative odds take the favorite branch, non-negative odds the underdog branch.
Python float arithmetic is modelled exactly over ℚ. -/
def american_to_implied_prob (odds : Int) : ℚ :=
  if odds < 0 then
    |(odds : ℚ)| / (|(odds : ℚ)| + 100) * 100
  else
    100 / ((odds : ℚ) + 100) * 100

/-- OddsAPI.calculate_market_probabilities (src/collectors/odds_api.py, lines
36-52): odds is read with a default of 0 for a missing price, and the Python
truthiness test if odds skips both a missing and a zero price; surviving
outcomes are written into a dict keyed by outcome name. -/
def calculate_market_probabilities (outcomes : List Outcome) : List (String × ℚ) :=
  outcomes.foldl
    (fun probs outcome =>
      let odds := outcome.price.getD 0
      if odds = 0 then probs
      else dictInsert outcome.name (american_to_implied_prob odds) probs)
    []

/-- LineMovementTracker.detect_reverse_line_movement
(src/analyzers/line_movement_tracker.py, lines 83-119), with the default
threshold of 55.0 passed explicitly by callers of this embedding. -/
def detect_reverse_line_movement (opening_line current_line implied_public_bet_pct threshold : ℚ) : Bool :=
  let line_movement := current_line - opening_line
  if implied_public_bet_pct > threshold ∧ line_movement < 0 then true
  else if implied_public_bet_pct < 100 - threshold ∧ line_movement > 0 then true
  else false

/-- LineMovementTracker._extract_spreads (src/analyzers/line_movement_tracker.py,
lines 168-193): for every bookmaker, for every market keyed spreads with at
least two outcomes, the first outcome named like the home team contributes its
point (defaulted to 0 when missing) under the bookmaker key. -/
def extract_spreads (game : Game) : List (String × ℚ) :=
  game.bookmakers.foldl
    (fun spreads bookmaker =>
      bookmaker.markets.foldl
        (fun spreads market =>
          if market.key = "spreads" then
            if 2 ≤ market.outcomes.length then
              match market.outcomes.find? (fun o => o.name == game.home_team) with
              | some o => dictInsert bookmaker.key (o.point.getD 0) spreads
              | none => spreads
            else spreads
          else spreads)
        spreads)
    []

/-- Value stored under the first key of a spreads dict; detect_steam_move only
indexes a non-empty dict (it does so after counting at least three common
books), so the default 0 is never consulted there. -/
def headVal (spreads : List (String × ℚ)) : ℚ :=
  (spreads.head?.map Prod.snd).getD 0

/-- Loop body of LineMovementTracker.detect_steam_move for one consecutive
snapshot pair (src/analyzers/line_movement_tracker.py, lines 139-164):
iterate the earlier dict, look each book up in the later dict, count and sum
the absolute movements of at least 1.5, and on a count of at least 3 emit the
event whose direction compares the first-keyed book of each dict. -/
def steamCheckPair (prev curr : SnapEntry) : Option SteamEvent :=
  let prev_spreads := extract_spreads prev.game
  let curr_spreads := extract_spreads curr.game
  let counts := prev_spreads.foldl
    (fun (acc : Nat × ℚ) bk =>
      match curr_spreads.lookup bk.1 with
      | some cv =>
          let movement := |cv - bk.2|
          if 3/2 ≤ movement then (acc.1 + 1, acc.2 + movement) else acc
      | none => acc)
    (0, 0)
  if 3 ≤ counts.1 then
    some { timestamp := curr.timestamp
           books_moved := counts.1
           avg_movement := counts.2 / (counts.1 : ℚ)
           direction := if headVal prev_spreads < headVal curr_spreads then "up" else "down" }
  else none

/-- The scan of detect_steam_move over consecutive pairs: return the first
pair's event, otherwise continue with the later snapshot as the new earlier
one. -/
def steamScan : SnapEntry → List SnapEntry → Option SteamEvent
  | _, [] => none
  | prev, curr :: rest =>
    match steamCheckPair prev curr with
    | some ev => some ev
    | none => steamScan curr rest

/-- LineMovementTracker.detect_steam_move (src/analyzers/line_movement_tracker.py,
lines 121-166): fewer than two snapshots yield none, otherwise the consecutive
pairs are scanned in order. -/
def detect_steam_move (snapshots : List SnapEntry) : Option SteamEvent :=
  if snapshots.length < 2 then none
  else
    match snapshots with
    | [] => none
    | s :: rest => steamScan s rest

/-- Per-market contribution inside LineMovementTracker.calculate_consensus_line
(src/analyzers/line_movement_tracker.py, lines 206-228): a market keyed like
the requested type contributes, for spreads with at least two outcomes, the
point of the first outcome named like the home team, and for totals with at
least one outcome the point of the first outcome named Over; a missing point
contributes nothing (the loop breaks after the first name match). -/
def marketLines (home_team market_type : String) (market : Market) : List ℚ :=
  if market.key = market_type then
    if market_type = "spreads" then
      if 2 ≤ market.outcomes.length then
        match market.outcomes.find? (fun o => o.name == home_team) with
        | some o => o.point.toList
        | none => []
      else []
    else if market_type = "totals" then
      if 1 ≤ market.outcomes.length then
        match market.outcomes.find? (fun o => o.name == "Over") with
        | some o => o.point.toList
        | none => []
      else []
    else []
  else []

/-- LineMovementTracker.calculate_consensus_line (src/analyzers/line_movement_tracker.py,
lines 195-234): the lines list is accumulated bookmaker by bookmaker, market by
market, and the unweighted mean is returned unless the list stayed empty. -/
def calculate_consensus_line (game : Game) (market_type : String) : Option ℚ :=
  let lines := game.bookmakers.foldl
    (fun lines bookmaker =>
      bookmaker.markets.foldl
        (fun lines market => lines ++ marketLines game.home_team market_type market)
        lines)
    []
  if lines = [] then none
  else some (lines.sum / (lines.length : ℚ))

/-- Python single-character str.replace as used on timestamps in
LineMovementTracker.save_snapshot: every colon becomes a hyphen. -/
def sanitizeTimestamp (ts : String) : String :=
  String.mk (ts.data.map fun c => if c = ':' then '-' else c)

/-- The filename LineMovementTracker.save_snapshot writes for a timestamp
(src/analyzers/line_movement_tracker.py, line 46). -/
def snapshotFilename (ts : String) : String :=
  "snapshot_" ++ sanitizeTimestamp ts ++ ".json"

/-- Code-point lexicographic comparison of character lists: the order Python
uses to compare the path strings that sorted() receives in get_snapshots. -/
def strLtB : List Char → List Char → Bool
  | [], [] => false
  | [], _ :: _ => true
  | _ :: _, [] => false
  | c :: a2, d :: b2 =>
    if c.toNat < d.toNat then true
    else if d.toNat < c.toNat then false
    else strLtB a2 b2

/-- Strict filename order between two persisted snapshot files. -/
def fileLtB (a b : SnapFile) : Bool :=
  strLtB (snapshotFilename a.timestamp).data (snapshotFilename b.timestamp).data

/-- Stable ascending insertion of a file into a filename-sorted list: the new
file goes in front of the first file not strictly below it, exactly where
Python's stable sorted() would leave it. -/
def sortInsert (f : SnapFile) : List SnapFile → List SnapFile
  | [] => [f]
  | g :: rest => if fileLtB g f then g :: sortInsert f rest else f :: g :: rest

/-- The ascending-by-filename ordering sorted() applies to the globbed
snapshot files in LineMovementTracker.get_snapshots (a stable ascending sort,
modelled as insertion sort, which agrees with any stable sort). -/
def sortFiles : List SnapFile → List SnapFile
  | [] => []
  | f :: rest => sortInsert f (sortFiles rest)

/-- LineMovementTracker.get_snapshots (src/analyzers/line_movement_tracker.py,
lines 56-81): the store directory is modelled as the list of persisted
snapshot files written by save_snapshot; the files are visited in ascending
filename order and each file whose games list holds the game id contributes
one entry built from its first matching game (the inner loop breaks). -/
def get_snapshots (store : List SnapFile) (game_id : String) : List SnapEntry :=
  (sortFiles store).filterMap fun file =>
    (file.games.find? fun g => g.id == game_id).map fun g =>
      { timestamp := file.timestamp, game := g }

/-- One of the per-market sections of the report built by
LineMovementTracker.get_line_movement_report. -/
structure MarketReport where
  opening : Option ℚ
  current : Option ℚ
  movement : Option ℚ
deriving DecidableEq

/-- The report dictionary built by LineMovementTracker.get_line_movement_report. -/
structure Report where
  game_id : String
  opening_timestamp : String
  current_timestamp : String
  spread : MarketReport
  total : MarketReport
  steam_moves : List SteamEvent
  snapshots_analyzed : Nat
deriving DecidableEq

/-- Python truthiness of an optional float: None and 0.0 are falsy, every
other float is truthy. -/
def pyTruthy : Option ℚ → Bool
  | none => false
  | some x => x != 0

/-- The movement field of a report section
(src/analyzers/line_movement_tracker.py, lines 273 and 278): the conditional
expression tests the truthiness of both consensus lines, so a present 0.0
line routes to None. -/
def reportMovement (o c : Option ℚ) : Option ℚ :=
  if pyTruthy o && pyTruthy c then some (c.getD 0 - o.getD 0) else none

/-- LineMovementTracker.get_line_movement_report (src/analyzers/line_movement_tracker.py,
lines 236-287): an empty snapshot list returns the error dictionary; otherwise
the first and last snapshots give the opening and current games, consensus
lines are computed for spreads and totals, the steam detector runs over the
full sequence, and the report is assembled. -/
def get_line_movement_report (store : List SnapFile) (game_id : String) : Except String Report :=
  let snapshots := get_snapshots store game_id
  match snapshots with
  | [] => Except.error "No snapshots found for this game"
  | first :: rest =>
    let last := (first :: rest).getLast?.getD first
    let opening_game := first.game
    let current_game := last.game
    let opening_spread := calculate_consensus_line opening_game "spreads"
    let current_spread := calculate_consensus_line current_game "spreads"
    let opening_total := calculate_consensus_line opening_game "totals"
    let current_total := calculate_consensus_line current_game "totals"
    let steam := detect_steam_move (first :: rest)
    Except.ok
      { game_id := game_id
        opening_timestamp := first.timestamp
        current_timestamp := last.timestamp
        spread :=
          { opening := opening_spread
            current := current_spread
            movement := reportMovement opening_spread current_spread }
        total :=
          { opening := opening_total
            current := current_total
            movement := reportMovement opening_total current_total }
        steam_moves := steam.toList
        snapshots_analyzed := (first :: rest).length }

/-- A steam-move event stripped of its direction field: the part of the event
that claim C1 describes. -/
structure SteamStats where
  timestamp : String
  books_moved : Nat
  avg_movement : ℚ
deriving DecidableEq

/-- Forget the direction field of a steam-move event. -/
def dropDirection (ev : SteamEvent) : SteamStats :=
  { timestamp := ev.timestamp, books_moved := ev.books_moved, avg_movement := ev.avg_movement }

/-- Modelled from the spec wording of claim C1: the absolute spread changes of
the books whose key is present in both snapshots' home-team spread mappings,
restricted to the significant ones (absolute change at least 1.5). -/
def sigMovements (prev curr : SnapEntry) : List ℚ :=
  let p := extract_spreads prev.game
  let c := extract_spreads curr.game
  (p.filterMap fun bk => (c.lookup bk.1).map fun cv => |cv - bk.2|).filter fun m => 3/2 ≤ m

/-- Modelled from the spec wording of claim C1: a consecutive pair qualifies
when at least three books moved significantly, and then reports the later
timestamp, the significant-book count and the arithmetic mean of the
significant absolute movements. -/
def pairStats (pc : SnapEntry × SnapEntry) : Option SteamStats :=
  let ms := sigMovements pc.1 pc.2
  if 3 ≤ ms.length then
    some { timestamp := pc.2.timestamp
           books_moved := ms.length
           avg_movement := ms.sum / (ms.length : ℚ) }
  else none

/-- Modelled from the spec wording of claim C1: fewer than two snapshots give
no event; otherwise the first qualifying consecutive pair, scanned in
chronological order, gives the event. -/
def steam_move_spec (snapshots : List SnapEntry) : Option SteamStats :=
  if snapshots.length < 2 then none
  else (snapshots.zip snapshots.tail).findSome? pairStats

/-- The contributions the amended claim C5 describes: every bookmaker
contributes, for each of its markets keyed by the requested type, the point of
the first outcome of interest when that point is present — for spreads only
from markets listing at least two outcomes. -/
def consensusContribs (game : Game) (market_type : String) : List ℚ :=
  game.bookmakers.flatMap fun b =>
    (b.markets.filter fun m => m.key = market_type).filterMap fun m =>
      if market_type = "spreads" then
        if 2 ≤ m.outcomes.length then
          (m.outcomes.find? fun o => o.name == game.home_team).bind Outcome.point
        else none
      else if market_type = "totals" then
        (m.outcomes.find? fun o => o.name == "Over").bind Outcome.point
      else none

/-- The amended claim C5 as a function: the unweighted mean of the
contributions, absent exactly when there are none. -/
def consensus_line_amended (game : Game) (market_type : String) : Option ℚ :=
  let ls := consensusContribs game market_type
  if ls = [] then none
  else some (ls.sum / (ls.length : ℚ))

/-- A game whose only bookmaker reports a spreads market listing a single
outcome: the home team's point is present, yet calculate_consensus_line skips
the market because it lists fewer than two outcomes. -/
def c5Game : Game :=
  { id := "g5"
    home_team := "H"
    bookmakers :=
      [{ key := "bookA"
         markets := [{ key := "spreads", outcomes := [{ name := "H", price := some (-110), point := some 3 }] }] }] }

/-- A two-outcome spreads market quoting the home team at the given point. -/
def spreadMarket (p : ℚ) : Market :=
  { key := "spreads"
    outcomes := [{ name := "H", price := some (-110), point := some p },
                 { name := "Away", price := some (-110), point := some (-p) }] }

/-- Earlier snapshot for claim C4: book bookA quotes 100, books bookB, bookC
and bookD quote 0. -/
def c4Prev : SnapEntry :=
  { timestamp := "2024-01-01T08:00:00"
    game :=
      { id := "g4"
        home_team := "H"
        bookmakers :=
          [{ key := "bookA", markets := [spreadMarket 100] },
           { key := "bookB", markets := [spreadMarket 0] },
           { key := "bookC", markets := [spreadMarket 0] },
           { key := "bookD", markets := [spreadMarket 0] }] } }

/-- Later snapshot for claim C4: bookA has dropped out and every remaining
book's home spread rose from 0 to 2. -/
def c4Curr : SnapEntry :=
  { timestamp := "2024-01-01T12:00:00"
    game :=
      { id := "g4"
        home_team := "H"
        bookmakers :=
          [{ key := "bookB", markets := [spreadMarket 2] },
           { key := "bookC", markets := [spreadMarket 2] },
           { key := "bookD", markets := [spreadMarket 2] }] } }

/-- The steam-move event the code emits for the pair c4Prev, c4Curr. -/
def c4Event : SteamEvent :=
  { timestamp := "2024-01-01T12:00:00", books_moved := 3, avg_movement := 2, direction := "down" }

/-- An outcome whose price is present and equal to the integer 0. -/
def c7Outcome : Outcome := { name := "X", price := some 0 }

/-- Bookmaker quoting the home spread at 3. -/
def c8BookA : Bookmaker := { key := "bookA", markets := [spreadMarket 3] }

/-- Bookmaker quoting the home spread at 5. -/
def c8BookB : Bookmaker := { key := "bookB", markets := [spreadMarket 5] }

/-- Two-bookmaker game used to exercise the permutation invariance of
calculate_consensus_line. -/
def c8Game : Game := { id := "g8", home_team := "H", bookmakers := [c8BookA, c8BookB] }

/-- The game stored in both files of the claim C9 counterexample store. -/
def c9Game : Game := { id := "g9", home_team := "H", bookmakers := [] }

/-- Snapshot file at an exact second (datetime.isoformat omits zero
microseconds). -/
def c9FileEarly : SnapFile := { timestamp := "2024-01-01T10:00:00", games := [c9Game] }

/-- Snapshot file one microsecond later (datetime.isoformat keeps nonzero
microseconds). -/
def c9FileLate : SnapFile := { timestamp := "2024-01-01T10:00:00.000001", games := [c9Game] }

/-- Store holding both claim C9 counterexample files, earliest first. -/
def c9Store : List SnapFile := [c9FileEarly, c9FileLate]

/-- Game used by the claim C9 witness store. -/
def c9wGame : Game := { id := "g9w", home_team := "H", bookmakers := [] }

/-- The single file of the claim C9 witness store. -/
def c9wFile : SnapFile := { timestamp := "2024-03-01T09:00:00", games := [c9wGame] }

/-- Store of the claim C9 witness. -/
def c9wStore : List SnapFile := [c9wFile]

/-- A one-bookmaker game quoting the home spread at the given point. -/
def oneBookGame (gid : String) (p : ℚ) : Game :=
  { id := gid, home_team := "H", bookmakers := [{ key := "bookA", markets := [spreadMarket p] }] }

/-- Earlier file of the claim C3 counterexample store: consensus spread 0. -/
def c3File1 : SnapFile := { timestamp := "2024-01-01T00:00:00", games := [oneBookGame "g3" 0] }

/-- Later file of the claim C3 counterexample store: consensus spread 1. -/
def c3File2 : SnapFile := { timestamp := "2024-01-02T00:00:00", games := [oneBookGame "g3" 1] }

/-- Store for the claim C3 counterexample: the opening consensus spread is
exactly 0 and the current consensus spread is 1. -/
def c3Store : List SnapFile := [c3File1, c3File2]

/-- Earlier file of the claim C3 witness store: consensus spread 2. -/
def c3wFile1 : SnapFile := { timestamp := "2024-01-01T00:00:00", games := [oneBookGame "g3w" 2] }

/-- Later file of the claim C3 witness store: consensus spread 5. -/
def c3wFile2 : SnapFile := { timestamp := "2024-01-02T00:00:00", games := [oneBookGame "g3w" 5] }

/-- Store for the claim C3 witness: opening consensus spread 2, current 5. -/
def c3wStore : List SnapFile := [c3wFile1, c3wFile2]

/-- The report the code assembles for c3wStore and game g3w. -/
def c3wReport : Report :=
  { game_id := "g3w"
    opening_timestamp := "2024-01-01T00:00:00"
    current_timestamp := "2024-01-02T00:00:00"
    spread := { opening := some 2, current := some 5, movement := some 3 }
    total := { opening := none, current := none, movement := none }
    steam_moves := []
    snapshots_analyzed := 2 }

theorem dictInsert_lookup (k k2 : String) (v : ℚ) (l : List (String × ℚ)) :
    (dictInsert k v l).lookup k2 = if k2 = k then some v else l.lookup k2 := by
  induction l with
  | nil =>
    by_cases h : k2 = k
    · subst h; simp [dictInsert, List.lookup]
    · have hb : (k2 == k) = false := beq_eq_false_iff_ne.mpr h
      simp [dictInsert, List.lookup, hb, h]
  | cons hd tl ih =>
    obtain ⟨k3, v3⟩ := hd
    by_cases h3 : k3 = k
    · subst h3
      by_cases h2 : k2 = k3
      · subst h2; simp [dictInsert, List.lookup]
      · have hb : (k2 == k3) = false := beq_eq_false_iff_ne.mpr h2
        simp [dictInsert, List.lookup, hb, h2]
    · by_cases h2 : k2 = k3
      · have hk2 : ¬ k2 = k := by rw [h2]; exact h3
        have hb : (k2 == k3) = true := beq_iff_eq.mpr h2
        simp [dictInsert, List.lookup, if_neg h3, hb, hk2]
      · have hb : (k2 == k3) = false := beq_eq_false_iff_ne.mpr h2
        simp [dictInsert, List.lookup, if_neg h3, hb, h2, ih]

theorem mem_dictInsert (p : String × ℚ) (k : String) (v : ℚ) (l : List (String × ℚ)) :
    p ∈ dictInsert k v l → p = (k, v) ∨ p ∈ l := by
  induction l with
  | nil =>
    intro hm
    simp [dictInsert] at hm
    exact Or.inl hm
  | cons hd tl ih =>
    obtain ⟨k3, v3⟩ := hd
    intro hm
    by_cases h3 : k3 = k
    · subst h3
      simp only [dictInsert, if_pos rfl] at hm
      rcases List.mem_cons.mp hm with h | h
      · exact Or.inl h
      · exact Or.inr (List.mem_cons.mpr (Or.inr h))
    · simp only [dictInsert, if_neg h3] at hm
      rcases List.mem_cons.mp hm with h | h
      · exact Or.inr (List.mem_cons.mpr (Or.inl h))
      · rcases ih h with h2 | h2
        · exact Or.inl h2
        · exact Or.inr (List.mem_cons.mpr (Or.inr h2))

theorem american_to_implied_prob_pos (o : Int) : 0 < american_to_implied_prob o := by
  unfold american_to_implied_prob
  split
  · rename_i h
    have h1 : ((o : ℚ)) < 0 := by exact_mod_cast h
    have h2 : (0 : ℚ) < |(o : ℚ)| := abs_pos.mpr (ne_of_lt h1)
    positivity
  · rename_i h
    have h1 : (0 : ℚ) ≤ (o : ℚ) := by exact_mod_cast Int.not_lt.mp h
    positivity

theorem american_to_implied_prob_lt_100 (o : Int) (h : o ≠ 0) :
    american_to_implied_prob o < 100 := by
  unfold american_to_implied_prob
  split
  · rename_i hneg
    have h1 : ((o : ℚ)) < 0 := by exact_mod_cast hneg
    have h2 : (0 : ℚ) < |(o : ℚ)| := abs_pos.mpr (ne_of_lt h1)
    rw [div_mul_eq_mul_div, div_lt_iff₀ (by linarith)]
    nlinarith
  · rename_i hpos
    have h0 : 0 < o := lt_of_le_of_ne (Int.not_lt.mp hpos) (Ne.symm h)
    have h1 : (1 : ℚ) ≤ (o : ℚ) := by exact_mod_cast h0
    rw [div_mul_eq_mul_div, div_lt_iff₀ (by linarith)]
    nlinarith

theorem strLtB_nil_right (a : List Char) : strLtB a [] = false := by
  cases a <;> rfl

theorem strLtB_asymm (a b : List Char) (h : strLtB a b = true) : strLtB b a = false := by
  induction a generalizing b with
  | nil =>
    cases b with
    | nil => simp [strLtB] at h
    | cons d b2 => simp [strLtB]
  | cons c a2 ih =>
    cases b with
    | nil => simp [strLtB] at h
    | cons d b2 =>
      simp only [strLtB] at h ⊢
      by_cases h1 : c.toNat < d.toNat
      · rw [if_neg (by omega), if_pos h1]
      · rw [if_neg h1] at h
        by_cases h2 : d.toNat < c.toNat
        · rw [if_pos h2] at h
          simp at h
        · rw [if_neg h2] at h
          rw [if_neg h2, if_neg h1]
          exact ih b2 h

theorem strLtB_false_trans (a b c : List Char) (h1 : strLtB b a = false)
    (h2 : strLtB c b = false) : strLtB c a = false := by
  induction a generalizing b c with
  | nil => exact strLtB_nil_right c
  | cons d a2 ih =>
    cases b with
    | nil => simp [strLtB] at h1
    | cons e b2 =>
      cases c with
      | nil => simp [strLtB] at h2
      | cons f c2 =>
        simp only [strLtB] at h1 h2 ⊢
        by_cases hed : e.toNat < d.toNat
        · rw [if_pos hed] at h1
          simp at h1
        · rw [if_neg hed] at h1
          by_cases hfe : f.toNat < e.toNat
          · rw [if_pos hfe] at h2
            simp at h2
          · rw [if_neg hfe] at h2
            rw [if_neg (by omega : ¬ f.toNat < d.toNat)]
            by_cases hde : d.toNat < e.toNat
            · rw [if_pos (by omega : d.toNat < f.toNat)]
            · rw [if_neg hde] at h1
              by_cases hef : e.toNat < f.toNat
              · rw [if_pos (by omega : d.toNat < f.toNat)]
              · rw [if_neg hef] at h2
                rw [if_neg (by omega : ¬ d.toNat < f.toNat)]
                exact ih b2 c2 h1 h2

theorem fileLtB_asymm (a b : SnapFile) (h : fileLtB a b = true) : fileLtB b a = false :=
  strLtB_asymm _ _ h

theorem fileLtB_false_trans (a b c : SnapFile) (h1 : fileLtB b a = false)
    (h2 : fileLtB c b = false) : fileLtB c a = false :=
  strLtB_false_trans _ _ _ h1 h2

theorem sortInsert_perm (f : SnapFile) (l : List SnapFile) :
    (sortInsert f l).Perm (f :: l) := by
  induction l with
  | nil => simp [sortInsert]
  | cons g rest ih =>
    by_cases h : fileLtB g f = true
    · simp only [sortInsert, if_pos h]
      exact ((ih.cons g).trans (List.Perm.swap f g rest))
    · simp only [sortInsert, if_neg h]
      exact List.Perm.refl _

theorem sortFiles_perm (l : List SnapFile) : (sortFiles l).Perm l := by
  induction l with
  | nil => simp [sortFiles]
  | cons f rest ih =>
    exact (sortInsert_perm f (sortFiles rest)).trans (ih.cons f)

theorem sortInsert_pairwise (f : SnapFile) (l : List SnapFile)
    (hl : l.Pairwise fun a b => fileLtB b a = false) :
    (sortInsert f l).Pairwise fun a b => fileLtB b a = false := by
  induction l with
  | nil => simp [sortInsert]
  | cons g rest ih =>
    rcases List.pairwise_cons.mp hl with ⟨hg, hrest⟩
    by_cases h : fileLtB g f = true
    · simp only [sortInsert, if_pos h]
      refine List.pairwise_cons.mpr ⟨?_, ih hrest⟩
      intro x hx
      rcases List.mem_cons.mp ((sortInsert_perm f rest).mem_iff.mp hx) with hx2 | hx2
      · subst hx2
        exact fileLtB_asymm g x h
      · exact hg x hx2
    · simp only [sortInsert, if_neg h]
      refine List.pairwise_cons.mpr ⟨?_, hl⟩
      intro x hx
      rcases List.mem_cons.mp hx with hx2 | hx2
      · subst hx2
        exact Bool.not_eq_true _ ▸ h
      · exact fileLtB_false_trans f g x (Bool.not_eq_true _ ▸ h) (hg x hx2)

theorem sortFiles_pairwise (l : List SnapFile) :
    (sortFiles l).Pairwise fun a b => fileLtB b a = false := by
  induction l with
  | nil => simp [sortFiles]
  | cons f rest ih => exact sortInsert_pairwise f (sortFiles rest) ih

theorem steam_fold_eq (c : List (String × ℚ)) (l : List (String × ℚ)) (a : Nat) (b : ℚ) :
    l.foldl
      (fun (acc : Nat × ℚ) bk =>
        match c.lookup bk.1 with
        | some cv =>
            let movement := |cv - bk.2|
            if 3/2 ≤ movement then (acc.1 + 1, acc.2 + movement) else acc
        | none => acc)
      (a, b)
    = (a + ((l.filterMap fun bk => (c.lookup bk.1).map fun cv => |cv - bk.2|).filter fun m => 3/2 ≤ m).length,
       b + ((l.filterMap fun bk => (c.lookup bk.1).map fun cv => |cv - bk.2|).filter fun m => 3/2 ≤ m).sum) := by
  induction l generalizing a b with
  | nil => simp
  | cons bk rest ih =>
    cases hlk : c.lookup bk.1 with
    | none =>
      simp [List.foldl_cons, List.filterMap_cons, hlk, ih]
    | some cv =>
      by_cases hm : (3 : ℚ)/2 ≤ |cv - bk.2|
      · simp [List.foldl_cons, List.filterMap_cons, hlk, ih, List.filter_cons, hm, Prod.ext_iff]
        constructor
        · omega
        · ring
      · simp [List.foldl_cons, List.filterMap_cons, hlk, ih, List.filter_cons, hm]

theorem steamCheckPair_pairStats (p cr : SnapEntry) :
    (steamCheckPair p cr).map dropDirection = pairStats (p, cr) := by
  unfold steamCheckPair pairStats sigMovements
  simp only [steam_fold_eq, Nat.zero_add, zero_add]
  by_cases h3 : 3 ≤ (((extract_spreads p.game).filterMap fun bk =>
      ((extract_spreads cr.game).lookup bk.1).map fun cv => |cv - bk.2|).filter fun m => 3/2 ≤ m).length
  · simp [if_pos h3, dropDirection]
  · simp [if_neg h3]

theorem steamScan_findSome (s : SnapEntry) (rest : List SnapEntry) :
    (steamScan s rest).map dropDirection = ((s :: rest).zip rest).findSome? pairStats := by
  induction rest generalizing s with
  | nil => simp [steamScan]
  | cons c r2 ih =>
    simp only [steamScan, List.zip_cons_cons, List.findSome?_cons]
    cases h : steamCheckPair s c with
    | some ev =>
      have h2 := steamCheckPair_pairStats s c
      rw [h] at h2
      rw [← h2]
      simp
    | none =>
      have h2 := steamCheckPair_pairStats s c
      rw [h] at h2
      rw [← h2]
      simpa using ih c

theorem foldl_append_flatMap {α : Type} (f : α → List ℚ) (l : List α) :
    ∀ init : List ℚ, l.foldl (fun acc x => acc ++ f x) init = init ++ l.flatMap f := by
  induction l with
  | nil => intro init; simp
  | cons x xs ih =>
    intro init
    simp [List.foldl_cons, List.flatMap_cons, ih, List.append_assoc]

theorem marketLines_contrib (home_team market_type : String) (m : Market) :
    marketLines home_team market_type m =
      (if m.key = market_type then
        (if market_type = "spreads" then
          if 2 ≤ m.outcomes.length then
            (m.outcomes.find? fun o => o.name == home_team).bind Outcome.point
          else none
        else if market_type = "totals" then
          (m.outcomes.find? fun o => o.name == "Over").bind Outcome.point
        else none)
      else none).toList := by
  unfold marketLines
  by_cases hk : m.key = market_type
  · simp only [if_pos hk]
    by_cases hs : market_type = "spreads"
    · simp only [if_pos hs]
      by_cases h2 : 2 ≤ m.outcomes.length
      · simp only [if_pos h2]
        cases m.outcomes.find? fun o => o.name == home_team with
        | none => simp
        | some o => simp [Option.bind]
      · simp [if_neg h2]
    · simp only [if_neg hs]
      by_cases ht : market_type = "totals"
      · simp only [if_pos ht]
        by_cases h1 : 1 ≤ m.outcomes.length
        · simp only [if_pos h1]
          cases m.outcomes.find? fun o => o.name == "Over" with
          | none => simp
          | some o => simp [Option.bind]
        · have hnil : m.outcomes = [] := List.eq_nil_of_length_eq_zero (by omega)
          simp [if_neg h1, hnil]
      · simp [if_neg ht]
  · simp [if_neg hk]

theorem flatMap_marketLines (home_team market_type : String) (markets : List Market) :
    markets.flatMap (marketLines home_team market_type) =
      ((markets.filter fun m => m.key = market_type).filterMap fun m =>
        if market_type = "spreads" then
          if 2 ≤ m.outcomes.length then
            (m.outcomes.find? fun o => o.name == home_team).bind Outcome.point
          else none
        else if market_type = "totals" then
          (m.outcomes.find? fun o => o.name == "Over").bind Outcome.point
        else none) := by
  induction markets with
  | nil => simp
  | cons m rest ih =>
    by_cases hk : m.key = market_type
    · rw [List.flatMap_cons, marketLines_contrib, List.filter_cons,
        if_pos (decide_eq_true hk), List.filterMap_cons, if_pos hk]
      cases hc : (if market_type = "spreads" then
          if 2 ≤ m.outcomes.length then
            (m.outcomes.find? fun o => o.name == home_team).bind Outcome.point
          else none
        else if market_type = "totals" then
          (m.outcomes.find? fun o => o.name == "Over").bind Outcome.point
        else none) with
      | none => simp [ih]
      | some v => simp [ih]
    · rw [List.flatMap_cons, marketLines_contrib, List.filter_cons, if_neg hk,
        if_neg (by simp [hk])]
      simp [ih]

theorem consensus_lines_eq (game : Game) (market_type : String) :
    game.bookmakers.foldl
      (fun lines bookmaker =>
        bookmaker.markets.foldl
          (fun lines market => lines ++ marketLines game.home_team market_type market)
          lines)
      [] = consensusContribs game market_type := by
  have hinner : ∀ (b : Bookmaker) (lines : List ℚ),
      b.markets.foldl (fun lines market => lines ++ marketLines game.home_team market_type market) lines
        = lines ++ b.markets.flatMap (marketLines game.home_team market_type) := by
    intro b lines
    exact foldl_append_flatMap _ _ _
  calc game.bookmakers.foldl
        (fun lines bookmaker =>
          bookmaker.markets.foldl
            (fun lines market => lines ++ marketLines game.home_team market_type market)
            lines)
        []
      = game.bookmakers.foldl
          (fun lines b => lines ++ b.markets.flatMap (marketLines game.home_team market_type)) [] := by
        congr 1
        funext lines b
        exact hinner b lines
    _ = [] ++ game.bookmakers.flatMap (fun b => b.markets.flatMap (marketLines game.home_team market_type)) :=
        foldl_append_flatMap _ _ _
    _ = consensusContribs game market_type := by
        simp only [List.nil_append, consensusContribs]
        congr 1
        funext b
        rw [flatMap_marketLines]

theorem reportMovement_eq_some_iff (o c : Option ℚ) (m : ℚ) :
    reportMovement o c = some m ↔
      ∃ ov cv, o = some ov ∧ c = some cv ∧ ov ≠ 0 ∧ cv ≠ 0 ∧ m = cv - ov := by
  cases o with
  | none => simp [reportMovement, pyTruthy]
  | some ov =>
    cases c with
    | none => simp [reportMovement, pyTruthy]
    | some cv =>
      by_cases hov : ov = 0
      · subst hov
        simp [reportMovement, pyTruthy]
      · by_cases hcv : cv = 0
        · subst hcv
          simp [reportMovement, pyTruthy]
        · simp only [reportMovement, pyTruthy, Option.getD_some]
          rw [if_pos (by simp [hov, hcv])]
          constructor
          · rintro h
            exact ⟨ov, cv, rfl, rfl, hov, hcv, (Option.some.inj h).symm⟩
          · rintro ⟨ov2, cv2, h1, h2, _, _, h5⟩
            cases Option.some.inj h1
            cases Option.some.inj h2
            exact congrArg some h5.symm

theorem market_probs_lookup_aux (name : String) (os : List Outcome) :
    ∀ acc : List (String × ℚ),
      ((os.foldl
          (fun probs outcome =>
            if outcome.price.getD 0 = 0 then probs
            else dictInsert outcome.name (american_to_implied_prob (outcome.price.getD 0)) probs)
          acc).lookup name ≠ none)
        ↔ ((∃ o ∈ os, o.name = name ∧ ∃ q, o.price = some q ∧ q ≠ 0) ∨ acc.lookup name ≠ none) := by
  induction os with
  | nil =>
    intro acc
    simp
  | cons o rest ih =>
    intro acc
    simp only [List.foldl_cons]
    cases hp : o.price with
    | none =>
      rw [if_pos (show ((none : Option Int).getD 0) = 0 from rfl), ih acc]
      simp [hp]
    | some q =>
      by_cases hq : q = 0
      · subst hq
        rw [if_pos (show ((some (0 : Int)).getD 0) = 0 from rfl), ih acc]
        simp [hp]
      · rw [if_neg (show ¬ ((some q).getD 0 = 0) from by simpa using hq), ih]
        rw [dictInsert_lookup]
        by_cases hn : name = o.name
        · simp only [if_pos hn, List.mem_cons]
          constructor
          · intro _
            exact Or.inl ⟨o, Or.inl rfl, hn.symm, q, hp, hq⟩
          · intro _
            simp
        · simp only [if_neg hn, List.mem_cons]
          constructor
          · rintro (⟨o2, h2, h3⟩ | h2)
            · exact Or.inl ⟨o2, Or.inr h2, h3⟩
            · exact Or.inr h2
          · rintro (⟨o2, h2 | h2, h3⟩ | h2)
            · exfalso
              apply hn
              rw [← h3.1, h2]
            · exact Or.inl ⟨o2, h2, h3⟩
            · exact Or.inr h2

theorem market_probs_mem_aux (os : List Outcome) :
    ∀ (acc : List (String × ℚ)) (p : String × ℚ),
      p ∈ os.foldl
          (fun probs outcome =>
            if outcome.price.getD 0 = 0 then probs
            else dictInsert outcome.name (american_to_implied_prob (outcome.price.getD 0)) probs)
          acc →
        p ∈ acc ∨ ∃ q : Int, q ≠ 0 ∧ p.2 = american_to_implied_prob q := by
  induction os with
  | nil =>
    intro acc p h
    exact Or.inl h
  | cons o rest ih =>
    intro acc p h
    simp only [List.foldl_cons] at h
    cases hp : o.price with
    | none =>
      rw [hp, if_pos (show ((none : Option Int).getD 0) = 0 from rfl)] at h
      exact ih acc p h
    | some q =>
      rw [hp] at h
      by_cases hq : q = 0
      · subst hq
        rw [if_pos (show ((some (0 : Int)).getD 0) = 0 from rfl)] at h
        exact ih acc p h
      · rw [if_neg (show ¬ ((some q).getD 0 = 0) from by simpa using hq)] at h
        rcases ih _ p h with h2 | h2
        · rcases mem_dictInsert p o.name (american_to_implied_prob ((some q).getD 0)) acc h2 with h3 | h3
          · exact Or.inr ⟨q, hq, by rw [h3]; rfl⟩
          · exact Or.inl h3
        · exact Or.inr h2

/-- C2: the code returns False on (opening -3.5, current -2.5, public 65,
threshold 55) and True on (opening -3.5, current -4.5, public 65, threshold
55), the exact opposite of the examples in the specification and in the
docstring of detect_reverse_line_movement itself; the third example (public 50)
agrees.  This evaluation records the divergence between the code and its own
documentation. -/
theorem reverse_line_movement_example_divergence :
    detect_reverse_line_movement (-7/2) (-5/2) 65 55 = false ∧
      detect_reverse_line_movement (-7/2) (-9/2) 65 55 = true ∧
      detect_reverse_line_movement (-7/2) (-5/2) 50 55 = false := by
  refine ⟨?_, ?_, ?_⟩ <;> norm_num [detect_reverse_line_movement]

/-- C6: for every nonzero American odds integer the implied probability lies
strictly between 0 and 100 and follows the documented branch formulas;
moreover the value at -110 is within 0.01 of 52.38 and the value at 150 is
exactly 40. -/
theorem implied_probability_range_and_values :
    (∀ o : Int, o ≠ 0 →
        0 < american_to_implied_prob o ∧ american_to_implied_prob o < 100 ∧
          (o < 0 → american_to_implied_prob o = |(o : ℚ)| / (|(o : ℚ)| + 100) * 100) ∧
          (0 < o → american_to_implied_prob o = 100 / ((o : ℚ) + 100) * 100)) ∧
      |american_to_implied_prob (-110) - 5238 / 100| < 1 / 100 ∧
      american_to_implied_prob 150 = 40 := by
  refine ⟨fun o ho => ⟨american_to_implied_prob_pos o, american_to_implied_prob_lt_100 o ho, ?_, ?_⟩, ?_, ?_⟩
  · intro hneg
    unfold american_to_implied_prob
    rw [if_pos hneg]
  · intro hpos
    unfold american_to_implied_prob
    rw [if_neg (by omega)]
  · have h : american_to_implied_prob (-110) = 1100 / 21 := by
      norm_num [american_to_implied_prob]
    rw [h, show (1100 / 21 : ℚ) - 5238 / 100 = 1 / 1050 by norm_num,
      abs_of_pos (by norm_num : (0:ℚ) < 1 / 1050)]
    norm_num
  · norm_num [american_to_implied_prob]

/-- Witness for C6: the range bounds instantiated at the concrete odds -110. -/
theorem implied_probability_range_witness :
    0 < american_to_implied_prob (-110) ∧ american_to_implied_prob (-110) < 100 := by
  have h := implied_probability_range_and_values.1 (-110) (by decide)
  exact ⟨h.1, h.2.1⟩

/-- C7 amended: the mapping returned by calculate_market_probabilities has an
entry under a name exactly when some outcome with that name carries a present
and nonzero price; an outcome whose price is absent or equal to the integer 0
is silently omitted (Python if odds is a truthiness test, so a zero price is
skipped exactly like a missing one). -/
theorem market_probabilities_lookup_characterization (outcomes : List Outcome) (name : String) :
    (calculate_market_probabilities outcomes).lookup name ≠ none ↔
      ∃ o ∈ outcomes, o.name = name ∧ ∃ q, o.price = some q ∧ q ≠ 0 := by
  have h := market_probs_lookup_aux name outcomes []
  constructor
  · intro h2
    rcases h.mp (by exact h2) with h3 | h3
    · exact h3
    · simp [List.lookup] at h3
  · intro h2
    exact h.mpr (Or.inl h2)

/-- Counterexample for C7 as stated: an outcome whose price is present and
equal to the integer 0 produces no entry at all, while the claim demands an
entry for every outcome carrying a non-null price. -/
theorem market_probabilities_zero_price_counterexample :
    c7Outcome.price = some 0 ∧ calculate_market_probabilities [c7Outcome] = [] := by
  exact ⟨rfl, rfl⟩

/-- C10: odds 0 takes the non-negative branch and returns exactly 100, and
every probability value that calculate_market_probabilities actually emits is
strictly below 100 (the truthiness filter keeps zero odds away from the
converter), so the degenerate value 100 never reaches downstream callers. -/
theorem zero_odds_returns_100 :
    american_to_implied_prob 0 = 100 ∧
      ∀ outcomes : List Outcome, ∀ p ∈ calculate_market_probabilities outcomes, p.2 < 100 := by
  constructor
  · norm_num [american_to_implied_prob]
  · intro outcomes p hp
    rcases market_probs_mem_aux outcomes [] p (by exact hp) with h | ⟨q, hq, h2⟩
    · simp at h
    · rw [h2]
      exact american_to_implied_prob_lt_100 q hq

/-- Witness for C10: the membership bound instantiated at a single outcome
priced -110. -/
theorem zero_odds_returns_100_witness :
    american_to_implied_prob 0 = 100 ∧
      (("X", american_to_implied_prob (-110)) : String × ℚ).2 < 100 :=
  ⟨zero_odds_returns_100.1,
   zero_odds_returns_100.2 [{ name := "X", price := some (-110) }]
     ("X", american_to_implied_prob (-110)) (List.mem_singleton.mpr rfl)⟩

/-- C1: detect_steam_move agrees, modulo the direction field, with the
specification of the steam scan: fewer than two snapshots give no event,
consecutive pairs are scanned in chronological order, only books keyed in both
snapshots' home-team spread mappings are compared, a book is significant when
its absolute change is at least 1.5, and the first pair with at least three
significant books yields the later timestamp, the significant count and the
mean significant absolute movement; otherwise the result is absent. -/
theorem steam_move_matches_first_pair_spec (snapshots : List SnapEntry) :
    (detect_steam_move snapshots).map dropDirection = steam_move_spec snapshots := by
  unfold detect_steam_move steam_move_spec
  by_cases h : snapshots.length < 2
  · rw [if_pos h, if_pos h]
    rfl
  · rw [if_neg h, if_neg h]
    cases snapshots with
    | nil => simp at h
    | cons s rest => exact steamScan_findSome s rest

/-- C8: the consensus line depends only on the multiset of bookmaker quotes:
permuting the bookmakers list of a game record leaves
calculate_consensus_line unchanged (the arithmetic is exact over ℚ). -/
theorem consensus_line_perm_invariant (game : Game) (bms : List Bookmaker)
    (h : game.bookmakers.Perm bms) (market_type : String) :
    calculate_consensus_line game market_type =
      calculate_consensus_line { game with bookmakers := bms } market_type := by
  have hp : (consensusContribs game market_type).Perm
      (consensusContribs { game with bookmakers := bms } market_type) := by
    unfold consensusContribs
    exact h.flatMap_right _
  have hlen := hp.length_eq
  unfold calculate_consensus_line
  rw [consensus_lines_eq, consensus_lines_eq]
  by_cases hnil : consensusContribs game market_type = []
  · have h2 : consensusContribs { game with bookmakers := bms } market_type = [] :=
      List.length_eq_zero.mp (by rw [← hlen, hnil]; rfl)
    rw [if_pos hnil, if_pos h2]
  · have h2 : ¬ consensusContribs { game with bookmakers := bms } market_type = [] := by
      intro hh
      exact hnil (List.length_eq_zero.mp (by rw [hlen, hh]; rfl))
    rw [if_neg hnil, if_neg h2, hp.sum_eq, hlen]

/-- Witness for C8: swapping the two bookmakers of a concrete game leaves the
consensus spread unchanged. -/
theorem consensus_line_perm_invariant_witness :
    calculate_consensus_line c8Game "spreads" =
      calculate_consensus_line { c8Game with bookmakers := [c8BookB, c8BookA] } "spreads" :=
  consensus_line_perm_invariant c8Game [c8BookB, c8BookA]
    (List.Perm.swap c8BookB c8BookA []) "spreads"

/-- C5 amended: calculate_consensus_line equals the unweighted mean of the
per-market contributions, where each bookmaker contributes, for every market
keyed by the requested type, the point of its first outcome of interest —
except that for spreads a market listing fewer than two outcomes is ignored —
and is absent exactly when there are zero such contributions. -/
theorem consensus_line_amended_agrees (game : Game) (market_type : String) :
    calculate_consensus_line game market_type = consensus_line_amended game market_type ∧
      (calculate_consensus_line game market_type = none ↔
        consensusContribs game market_type = []) := by
  have he : calculate_consensus_line game market_type = consensus_line_amended game market_type := by
    unfold calculate_consensus_line consensus_line_amended
    rw [consensus_lines_eq]
  refine ⟨he, ?_⟩
  rw [he]
  unfold consensus_line_amended
  by_cases h : consensusContribs game market_type = []
  · simp [h]
  · simp [h]

/-- Counterexample for C5 as stated: a bookmaker whose spreads market lists
only the home-team outcome does report the market and the home point 3, yet
calculate_consensus_line returns absent because the market has fewer than two
outcomes, contradicting the claim that the result is absent exactly when zero
books contribute a point value. -/
theorem consensus_line_single_outcome_counterexample :
    calculate_consensus_line c5Game "spreads" = none ∧
      ∃ b ∈ c5Game.bookmakers, ∃ m ∈ b.markets, m.key = "spreads" ∧
        ∃ o ∈ m.outcomes, o.name = c5Game.home_team ∧ o.point = some 3 := by
  constructor
  · simp [calculate_consensus_line, marketLines, c5Game]
  · simp [c5Game]

theorem c4_extract_prev :
    extract_spreads c4Prev.game =
      [("bookA", 100), ("bookB", 0), ("bookC", 0), ("bookD", 0)] := by
  simp [extract_spreads, c4Prev, spreadMarket, dictInsert]

theorem c4_extract_curr :
    extract_spreads c4Curr.game = [("bookB", 2), ("bookC", 2), ("bookD", 2)] := by
  simp [extract_spreads, c4Curr, spreadMarket, dictInsert]

theorem c4_pair_eval : steamCheckPair c4Prev c4Curr = some c4Event := by
  unfold steamCheckPair
  rw [c4_extract_prev, c4_extract_curr]
  simp only [List.foldl_cons, List.foldl_nil, List.lookup, headVal]
  simp
  norm_num [c4Event, c4Curr]

/-- C4 amended: the direction of an emitted steam-move event compares two
possibly different reference books: the value under the first key of the LATER
snapshot's spread dict against the value under the first key of the EARLIER
snapshot's spread dict; it is up when the later first-keyed value is strictly
larger and down otherwise (no single common reference book is used). -/
theorem steam_direction_reference_books (prev curr : SnapEntry) (ev : SteamEvent)
    (h : steamCheckPair prev curr = some ev) :
    ev.direction =
      if headVal (extract_spreads prev.game) < headVal (extract_spreads curr.game)
      then "up" else "down" := by
  simp only [steamCheckPair] at h
  split at h
  · injection h with h2
    subst h2
    rfl
  · exact Option.noConfusion h

/-- Witness for C4: the amended direction rule instantiated at the concrete
qualifying pair c4Prev, c4Curr. -/
theorem steam_direction_reference_books_witness :
    c4Event.direction =
      if headVal (extract_spreads c4Prev.game) < headVal (extract_spreads c4Curr.game)
      then "up" else "down" :=
  steam_direction_reference_books c4Prev c4Curr c4Event c4_pair_eval

/-- Counterexample for C4 as stated: in the pair c4Prev, c4Curr every book
keyed in both spread dicts (bookB, bookC, bookD) moved up from 0 to 2, so any
single common reference book says up, yet the emitted direction is down: the
code compares curr's first key bookB (value 2) against prev's first key bookA
(value 100), two different books, one of which is absent from the later
snapshot. -/
theorem steam_direction_counterexample :
    detect_steam_move [c4Prev, c4Curr] = some c4Event ∧
      c4Event.direction = "down" ∧
      extract_spreads c4Prev.game =
        [("bookA", 100), ("bookB", 0), ("bookC", 0), ("bookD", 0)] ∧
      extract_spreads c4Curr.game = [("bookB", 2), ("bookC", 2), ("bookD", 2)] := by
  refine ⟨?_, rfl, c4_extract_prev, c4_extract_curr⟩
  simp [detect_steam_move, steamScan, c4_pair_eval]

theorem c3_snapshots_eval :
    get_snapshots c3Store "g3" =
      [{ timestamp := "2024-01-01T00:00:00", game := oneBookGame "g3" 0 },
       { timestamp := "2024-01-02T00:00:00", game := oneBookGame "g3" 1 }] := by
  unfold get_snapshots c3Store sortFiles
  rw [show sortFiles [c3File2] = [c3File2] from rfl]
  rw [show sortInsert c3File1 [c3File2] = [c3File1, c3File2] from by
    simp [sortInsert, show fileLtB c3File2 c3File1 = false from by decide]]
  simp [c3File1, c3File2, oneBookGame]

theorem consensus_oneBookGame (gid : String) (p : ℚ) :
    calculate_consensus_line (oneBookGame gid p) "spreads" = some p := by
  simp [calculate_consensus_line, marketLines, oneBookGame, spreadMarket]

theorem consensus_oneBookGame_totals (gid : String) (p : ℚ) :
    calculate_consensus_line (oneBookGame gid p) "totals" = none := by
  simp [calculate_consensus_line, marketLines, oneBookGame, spreadMarket]

/-- Counterexample for C3 as stated: for the store c3Store both consensus
spread lines are present (opening 0.0, current 1.0), yet the report's spread
movement is null, because the code guards the subtraction with Python
truthiness and the float 0.0 is falsy; the claim that a present 0.0 line
counts as present is refuted. -/
theorem report_movement_zero_line_counterexample :
    (get_line_movement_report c3Store "g3").toOption.map
        (fun r => (r.spread.opening, r.spread.current, r.spread.movement)) =
      some (some 0, some 1, none) := by
  unfold get_line_movement_report
  rw [c3_snapshots_eval]
  simp [Except.toOption, List.getLast?, reportMovement, pyTruthy,
    consensus_oneBookGame, consensus_oneBookGame_totals]

/-- C3 amended: in a successfully produced report, each market section's
movement field is present exactly when both consensus lines are present AND
both are nonzero (Python truthiness treats a present 0.0 exactly like an
absent line), in which case it equals current minus opening. -/
theorem report_movement_null_iff_falsy (store : List SnapFile) (game_id : String) (r : Report)
    (h : get_line_movement_report store game_id = Except.ok r) :
    (∀ m : ℚ, r.spread.movement = some m ↔
        ∃ ov cv, r.spread.opening = some ov ∧ r.spread.current = some cv ∧
          ov ≠ 0 ∧ cv ≠ 0 ∧ m = cv - ov) ∧
      (∀ m : ℚ, r.total.movement = some m ↔
        ∃ ov cv, r.total.opening = some ov ∧ r.total.current = some cv ∧
          ov ≠ 0 ∧ cv ≠ 0 ∧ m = cv - ov) := by
  simp only [get_line_movement_report] at h
  cases hs : get_snapshots store game_id with
  | nil =>
    rw [hs] at h
    exact Except.noConfusion h
  | cons first rest =>
    rw [hs] at h
    injection h with h2
    subst h2
    constructor
    · intro m
      exact reportMovement_eq_some_iff _ _ m
    · intro m
      exact reportMovement_eq_some_iff _ _ m

theorem c3w_snapshots_eval :
    get_snapshots c3wStore "g3w" =
      [{ timestamp := "2024-01-01T00:00:00", game := oneBookGame "g3w" 2 },
       { timestamp := "2024-01-02T00:00:00", game := oneBookGame "g3w" 5 }] := by
  unfold get_snapshots c3wStore sortFiles
  rw [show sortFiles [c3wFile2] = [c3wFile2] from rfl]
  rw [show sortInsert c3wFile1 [c3wFile2] = [c3wFile1, c3wFile2] from by
    simp [sortInsert, show fileLtB c3wFile2 c3wFile1 = false from by decide]]
  simp [c3wFile1, c3wFile2, oneBookGame]

theorem c3w_steam_eval :
    detect_steam_move
      [{ timestamp := "2024-01-01T00:00:00", game := oneBookGame "g3w" 2 },
       { timestamp := "2024-01-02T00:00:00", game := oneBookGame "g3w" 5 }] = none := by
  have hpair : steamCheckPair
      { timestamp := "2024-01-01T00:00:00", game := oneBookGame "g3w" 2 }
      { timestamp := "2024-01-02T00:00:00", game := oneBookGame "g3w" 5 } = none := by
    unfold steamCheckPair
    simp [extract_spreads, oneBookGame, spreadMarket, dictInsert, List.lookup]
    norm_num
  simp [detect_steam_move, steamScan, hpair]

theorem c3w_report_eval : get_line_movement_report c3wStore "g3w" = Except.ok c3wReport := by
  unfold get_line_movement_report
  rw [c3w_snapshots_eval]
  simp [c3wReport, List.getLast?, reportMovement, pyTruthy,
    consensus_oneBookGame, consensus_oneBookGame_totals, c3w_steam_eval,
    show ((2:ℚ) == 0) = false from beq_eq_false_iff_ne.mpr (by norm_num),
    show ((5:ℚ) == 0) = false from beq_eq_false_iff_ne.mpr (by norm_num)]
  norm_num

/-- Witness for C3: the amended movement rule instantiated on the concrete
store with opening consensus 2 and current consensus 5. -/
theorem report_movement_null_iff_falsy_witness :
    c3wReport.spread.movement = some 3 :=
  ((report_movement_null_iff_falsy c3wStore "g3w" c3wReport c3w_report_eval).1 3).mpr
    ⟨2, 5, rfl, rfl, by norm_num, by norm_num, by norm_num⟩

/-- Counterexample for C9 as stated: both store files hold game g9; the
timestamp 2024-01-01T10:00:00 precedes 2024-01-01T10:00:00.000001 both
chronologically and in code-point order (second conjunct), yet get_snapshots
returns the microsecond file FIRST, because the files are sorted by filename
and the appended .json makes snapshot_...10-00-00.000001.json compare below
snapshot_...10-00-00.json (the digit 0 sorts before the letter j). -/
theorem snapshots_timestamp_order_counterexample :
    get_snapshots c9Store "g9" =
      [{ timestamp := "2024-01-01T10:00:00.000001", game := c9Game },
       { timestamp := "2024-01-01T10:00:00", game := c9Game }] ∧
      strLtB "2024-01-01T10:00:00".data "2024-01-01T10:00:00.000001".data = true := by
  exact ⟨by decide, by decide⟩

/-- C9 amended: get_snapshots returns, as (timestamp, first matching game)
entries, exactly the persisted snapshot files containing the game id, ordered
ascending by snapshot filename (which coincides with timestamp order only when
all timestamps share one format); an unknown game id yields the empty list,
never an error.  Conjuncts: emptiness characterization, soundness of every
entry, completeness for every matching file, and filename-sortedness. -/
theorem snapshots_store_characterization (store : List SnapFile) (game_id : String) :
    (get_snapshots store game_id = [] ↔ ∀ f ∈ store, ∀ g ∈ f.games, g.id ≠ game_id) ∧
      (∀ e ∈ get_snapshots store game_id,
        ∃ f ∈ store, e.timestamp = f.timestamp ∧ e.game ∈ f.games ∧ e.game.id = game_id) ∧
      (∀ f ∈ store, (∃ g ∈ f.games, g.id = game_id) →
        ∃ e ∈ get_snapshots store game_id, e.timestamp = f.timestamp ∧ e.game ∈ f.games) ∧
      (get_snapshots store game_id).Pairwise
        (fun e1 e2 =>
          strLtB (snapshotFilename e2.timestamp).data (snapshotFilename e1.timestamp).data = false) := by
  refine ⟨?_, ?_, ?_, ?_⟩
  · unfold get_snapshots
    rw [List.filterMap_eq_nil_iff]
    constructor
    · intro h f hf g hg hid
      have h2 := h f ((sortFiles_perm store).mem_iff.mpr hf)
      rw [Option.map_eq_none'] at h2
      exact absurd (beq_iff_eq.mpr hid) (by simpa using List.find?_eq_none.mp h2 g hg)
    · intro h f hf
      rw [Option.map_eq_none', List.find?_eq_none]
      intro g hg
      simpa using h f ((sortFiles_perm store).mem_iff.mp hf) g hg
  · intro e he
    unfold get_snapshots at he
    rcases List.mem_filterMap.mp he with ⟨f, hf, hpick⟩
    rcases Option.map_eq_some'.mp hpick with ⟨g, hfind, hg⟩
    refine ⟨f, (sortFiles_perm store).mem_iff.mp hf, ?_, ?_, ?_⟩
    · rw [← hg]
    · rw [← hg]
      exact List.mem_of_find?_eq_some hfind
    · rw [← hg]
      simpa using List.find?_some hfind
  · intro f hf hex
    have hsome : ((f.games.find? fun g => g.id == game_id)).isSome := by
      rw [List.find?_isSome]
      rcases hex with ⟨g, hg, hid⟩
      exact ⟨g, hg, beq_iff_eq.mpr hid⟩
    rcases Option.isSome_iff_exists.mp hsome with ⟨g0, hfind⟩
    refine ⟨{ timestamp := f.timestamp, game := g0 }, ?_, rfl, ?_⟩
    · unfold get_snapshots
      exact List.mem_filterMap.mpr
        ⟨f, (sortFiles_perm store).mem_iff.mpr hf, by rw [hfind]; rfl⟩
    · exact List.mem_of_find?_eq_some hfind
  · unfold get_snapshots
    rw [List.pairwise_filterMap]
    refine (sortFiles_pairwise store).imp ?_
    intro a b hab x hx y hy
    rcases Option.map_eq_some'.mp hx with ⟨gx, _, hgx⟩
    rcases Option.map_eq_some'.mp hy with ⟨gy, _, hgy⟩
    rw [← hgx, ← hgy]
    exact hab

/-- Witness for C9: the completeness conjunct instantiated at the one-file
witness store. -/
theorem snapshots_store_witness :
    ∃ e ∈ get_snapshots c9wStore "g9w", e.timestamp = c9wFile.timestamp ∧ e.game ∈ c9wFile.games :=
  (snapshots_store_characterization c9wStore "g9w").2.2.1 c9wFile (by decide)
    ⟨c9wGame, by decide, by decide⟩
